import Mathlib

/-!
Shallow embedding of the whisper-web transcription session controller
(`useTranscriber`), its worker message protocol, the progress tracker,
the audio mixdown, and the transcript model / export engine
(`Transcript` component), together with theorems settling the spec
claims about them.

Numbers carried by worker messages and chunk timestamps are modelled as
rationals; audio samples are modelled as real numbers (the stereo
mixdown multiplies by the square root of two).
-/

namespace WhisperWeb

/-- A single transcript chunk, `{ text, timestamp: [start, end|null] }`.
The second timestamp component is `none` when the chunk is open-ended. -/
structure Chunk where
  text : String
  timestamp : ℚ × Option ℚ
  deriving DecidableEq, Repr

/-- Payload of a worker `update` / `complete` event (`TranscriberUpdateData.data`). -/
structure UpdateData where
  text : String
  chunks : List Chunk
  tps : ℚ
  deriving DecidableEq, Repr

/-- The controller's current output (`TranscriberData`). -/
structure TranscriberData where
  isBusy : Bool
  tps : Option ℚ
  text : String
  chunks : List Chunk
  deriving DecidableEq, Repr

/-- A progress tracker entry (`ProgressItem`). -/
structure ProgressItem where
  file : String
  loaded : ℚ
  progress : ℚ
  total : ℚ
  name : String
  status : String
  deriving DecidableEq, Repr

/-- Events sent by the worker to the controller, tagged by `status`. -/
inductive WorkerEvent where
  | progress (file : String) (p : ℚ)
  | update (data : UpdateData)
  | complete (data : UpdateData)
  | initiate (item : ProgressItem)
  | ready
  | model_ready
  | model_check_complete
  | error (message : String)
  | done (file : String)
  deriving DecidableEq, Repr

/-- Requests posted by the controller to the worker, tagged by `action`. -/
inductive WorkerRequest where
  | check_model (model dtype : String) (gpu : Bool)
  | download_model (model dtype : String) (gpu : Bool)
  | transcribe (audio : List ℝ) (model dtype : String) (gpu : Bool)
      (subtask : Option String) (language : Option String)

/-- The state held by `useTranscriber`: the current output, the four
readiness/busy flags, the progress tracker list and the model
configuration. -/
structure TranscriberState where
  transcript : Option TranscriberData
  isBusy : Bool
  isModelLoading : Bool
  isModelReady : Bool
  isCheckingModel : Bool
  progressItems : List ProgressItem
  model : String
  dtype : String
  gpu : Bool
  subtask : String
  language : String
  deriving DecidableEq, Repr

/-! ### Configuration setters

Each setter updates its `useState` cell.  The `useEffect` with
dependencies `[model, dtype, gpu]` re-runs exactly when the new value
differs from the old one (React bails out of an update with an
identical value), and its body resets `isModelReady` to `false`.
`setLanguage` and `setSubtask` have no such effect attached. -/

/-- `setModel`: store the new model id; the `[model, dtype, gpu]` effect
resets readiness when the value actually changed. -/
def setModel (v : String) (s : TranscriberState) : TranscriberState :=
  if v = s.model then { s with model := v }
  else { s with model := v, isModelReady := false }

/-- `setDtype`: store the new dtype; the `[model, dtype, gpu]` effect
resets readiness when the value actually changed. -/
def setDtype (v : String) (s : TranscriberState) : TranscriberState :=
  if v = s.dtype then { s with dtype := v }
  else { s with dtype := v, isModelReady := false }

/-- `setGPU`: store the new accelerator flag; the `[model, dtype, gpu]`
effect resets readiness when the value actually changed. -/
def setGPU (v : Bool) (s : TranscriberState) : TranscriberState :=
  if v = s.gpu then { s with gpu := v }
  else { s with gpu := v, isModelReady := false }

/-- `setSubtask`: store the new subtask; no effect depends on it. -/
def setSubtask (v : String) (s : TranscriberState) : TranscriberState :=
  { s with subtask := v }

/-- `setLanguage`: store the new language; no effect depends on it. -/
def setLanguage (v : String) (s : TranscriberState) : TranscriberState :=
  { s with language := v }

/-- `onInputChange`: clear the current transcript, touching nothing else. -/
def onInputChange (s : TranscriberState) : TranscriberState :=
  { s with transcript := none }

/-- C1: changing `model`, `dtype` or `gpu` forces `isModelReady` to
`false` in every state, even if it was `true`; `setLanguage` and
`setSubtask` leave `isModelReady`, `isBusy`, `isModelLoading` and
`isCheckingModel` all unchanged. -/
theorem configSetters_readiness :
    (∀ s v, v ≠ s.model → (setModel v s).isModelReady = false) ∧
    (∀ s v, v ≠ s.dtype → (setDtype v s).isModelReady = false) ∧
    (∀ s v, v ≠ s.gpu → (setGPU v s).isModelReady = false) ∧
    (∀ s v, (setLanguage v s).isModelReady = s.isModelReady ∧
      (setLanguage v s).isBusy = s.isBusy ∧
      (setLanguage v s).isModelLoading = s.isModelLoading ∧
      (setLanguage v s).isCheckingModel = s.isCheckingModel) ∧
    (∀ s v, (setSubtask v s).isModelReady = s.isModelReady ∧
      (setSubtask v s).isBusy = s.isBusy ∧
      (setSubtask v s).isModelLoading = s.isModelLoading ∧
      (setSubtask v s).isCheckingModel = s.isCheckingModel) := by
  refine ⟨?_, ?_, ?_, ?_, ?_⟩ <;> intro s v
  · intro h; simp [setModel, h]
  · intro h; simp [setDtype, h]
  · intro h; simp [setGPU, h]
  · exact ⟨rfl, rfl, rfl, rfl⟩
  · exact ⟨rfl, rfl, rfl, rfl⟩

/-! ### Worker message handler

`useWorker` installs one message handler; it switches on the event's
`status` tag.  Besides updating state it can raise an `alert` (the
`error` case).  It never posts a request back to the worker, which the
model makes visible by also returning a (always empty) request list. -/

/-- The controller's worker message handler: returns the new state, the
alert texts raised, and the worker requests posted (none, in every
case). -/
def handleWorkerMessage (e : WorkerEvent) (s : TranscriberState) :
    TranscriberState × List String × List WorkerRequest :=
  match e with
  | .progress file p =>
      ({ s with
          progressItems := s.progressItems.map fun item =>
            if item.file = file then { item with progress := p } else item },
        [], [])
  | .update data =>
      ({ s with
          transcript := some
            { isBusy := true, text := data.text, tps := some data.tps,
              chunks := data.chunks },
          isBusy := true }, [], [])
  | .complete data =>
      ({ s with
          transcript := some
            { isBusy := false, text := data.text, tps := some data.tps,
              chunks := data.chunks },
          isBusy := false }, [], [])
  | .initiate item =>
      ({ s with
          isModelLoading := true,
          progressItems := s.progressItems ++ [item] }, [], [])
  | .ready =>
      ({ s with isModelLoading := false }, [], [])
  | .model_ready =>
      ({ s with
          isModelLoading := false,
          isModelReady := true,
          isCheckingModel := false }, [], [])
  | .model_check_complete =>
      ({ s with isCheckingModel := false }, [], [])
  | .error message =>
      ({ s with
          isBusy := false,
          isModelLoading := false,
          isCheckingModel := false },
        ["An error occurred: \"" ++ message ++ "\". Please file a bug report."],
        [])
  | .done file =>
      ({ s with
          progressItems := s.progressItems.filter fun item =>
            item.file ≠ file }, [], [])

/-- Run a sequence of worker events through the handler, keeping only
the state. -/
def runEvents (t : List WorkerEvent) (s : TranscriberState) : TranscriberState :=
  t.foldl (fun s e => (handleWorkerMessage e s).1) s

/-- `downloadModel`: reset readiness, then post one `download_model`
request carrying the current model configuration. -/
def downloadModelRequest (s : TranscriberState) :
    TranscriberState × List WorkerRequest :=
  ({ s with isModelReady := false },
    [.download_model s.model s.dtype s.gpu])

/-- C5: an `error` event clears `isBusy`, `isModelLoading` and
`isCheckingModel`, surfaces the event's message text in the single
alert it raises, leaves the current transcript untouched, and posts no
request (in particular no retry). -/
theorem errorEvent_policy :
    ∀ s msg,
      (handleWorkerMessage (.error msg) s).1.isBusy = false ∧
      (handleWorkerMessage (.error msg) s).1.isModelLoading = false ∧
      (handleWorkerMessage (.error msg) s).1.isCheckingModel = false ∧
      (handleWorkerMessage (.error msg) s).1.transcript = s.transcript ∧
      (handleWorkerMessage (.error msg) s).2.1 =
        ["An error occurred: \"" ++ msg ++ "\". Please file a bug report."] ∧
      (handleWorkerMessage (.error msg) s).2.2 = [] := by
  intro s msg
  exact ⟨rfl, rfl, rfl, rfl, rfl, rfl⟩

/-- A concrete controller state used to instantiate the universally
quantified theorems: model ready, not busy, default-style config. -/
def sampleState : TranscriberState :=
  { transcript := none
    isBusy := false
    isModelLoading := false
    isModelReady := true
    isCheckingModel := false
    progressItems := []
    model := "onnx-community/whisper-tiny"
    dtype := "q4"
    gpu := false
    subtask := "transcribe"
    language := "en" }

/-- Witness for `configSetters_readiness`: at `sampleState` (whose
readiness is `true`), switching to a different model id yields
readiness `false`. -/
theorem configSetters_readiness_witness :
    ("onnx-community/whisper-base" ≠ sampleState.model) ∧
      (setModel "onnx-community/whisper-base" sampleState).isModelReady = false :=
  ⟨by decide, configSetters_readiness.1 sampleState "onnx-community/whisper-base" (by decide)⟩

/-! ### Readiness after `downloadModel` (claim C6)

Only the `model_ready` case of the handler writes `true` into
`isModelReady`; the `ready` case merely clears `isModelLoading`. -/

/-- Any event other than `model_ready` leaves `isModelReady` unchanged. -/
theorem isModelReady_invariant_of_ne_model_ready
    (e : WorkerEvent) (s : TranscriberState) (h : e ≠ .model_ready) :
    (handleWorkerMessage e s).1.isModelReady = s.isModelReady := by
  cases e <;> simp [handleWorkerMessage] at h ⊢

/-- Counterexample to C6 as stated: starting from `sampleState`,
`downloadModel` resets readiness, and a subsequent `ready` event does
NOT restore it to `true` — readiness is still `false`. -/
theorem downloadModel_ready_event_counterexample :
    (handleWorkerMessage .ready (downloadModelRequest sampleState).1).1.isModelReady
      = false := by
  decide

/-- C6 (amended): `downloadModel` forces readiness to `false`
immediately, and readiness stays `false` under every subsequent
worker-event sequence that contains no `model_ready` event; a
`model_ready` event restores readiness to `true`, while a `ready` event
leaves readiness unchanged (it only clears the loading flag). -/
theorem downloadModel_readiness :
    (∀ s, (downloadModelRequest s).1.isModelReady = false) ∧
    (∀ s (t : List WorkerEvent), (∀ e ∈ t, e ≠ WorkerEvent.model_ready) →
      (runEvents t (downloadModelRequest s).1).isModelReady = false) ∧
    (∀ s, (handleWorkerMessage .model_ready s).1.isModelReady = true) ∧
    (∀ s, (handleWorkerMessage .ready s).1.isModelReady = s.isModelReady) := by
  have key : ∀ (t : List WorkerEvent) (s : TranscriberState),
      (∀ e ∈ t, e ≠ WorkerEvent.model_ready) → s.isModelReady = false →
      (runEvents t s).isModelReady = false := by
    intro t
    induction t with
    | nil => intro s _ hs; exact hs
    | cons e t ih =>
        intro s h hs
        have he : e ≠ WorkerEvent.model_ready := h e (List.mem_cons_self e t)
        have ht : ∀ x ∈ t, x ≠ WorkerEvent.model_ready := fun x hx =>
          h x (List.mem_cons_of_mem e hx)
        have : (handleWorkerMessage e s).1.isModelReady = false := by
          rw [isModelReady_invariant_of_ne_model_ready e s he]; exact hs
        exact ih (handleWorkerMessage e s).1 ht this
  refine ⟨fun s => rfl, ?_, fun s => rfl, fun s => rfl⟩
  intro s t h
  exact key t (downloadModelRequest s).1 h rfl

/-- Witness for `downloadModel_readiness`: after `downloadModel` at
`sampleState`, the model-file event sequence `initiate`, `progress`,
`done`, `ready` (no `model_ready`) leaves readiness `false`. -/
theorem downloadModel_readiness_witness :
    (∀ e ∈ [WorkerEvent.initiate
        { file := "model.onnx", loaded := 0, progress := 0, total := 100,
          name := "whisper-tiny", status := "initiate" },
      WorkerEvent.progress "model.onnx" (1/2), WorkerEvent.done "model.onnx",
      WorkerEvent.ready], e ≠ WorkerEvent.model_ready) ∧
    (runEvents [WorkerEvent.initiate
        { file := "model.onnx", loaded := 0, progress := 0, total := 100,
          name := "whisper-tiny", status := "initiate" },
      WorkerEvent.progress "model.onnx" (1/2), WorkerEvent.done "model.onnx",
      WorkerEvent.ready]
      (downloadModelRequest sampleState).1).isModelReady = false :=
  ⟨by decide, downloadModel_readiness.2.1 sampleState _ (by decide)⟩

/-! ### Progress tracker (claim C3)

The tracker is the `progressItems` list inside the controller state,
driven by the `initiate` / `progress` / `done` cases of the handler.
The protocol (§4.2) guarantees, per file key, the order
`initiate`, then `progress` events, then `done`; `fileRun` is that
per-file automaton. -/

/-- Kind of a tracker-relevant event for one fixed file key. -/
inductive FileEventKind where
  | start
  | prog
  | finish
  deriving DecidableEq, Repr

/-- Classify an event with respect to file key `F`: `initiate`,
`progress` or `done` carrying exactly that key, or nothing. -/
def fileKind (F : String) : WorkerEvent → Option FileEventKind
  | .initiate item => if item.file = F then some .start else none
  | .progress file _ => if file = F then some .prog else none
  | .done file => if file = F then some .finish else none
  | _ => none

/-- The per-file protocol automaton: the `Bool` is "this file has an
in-flight download".  `initiate` opens a closed file, `progress` keeps
it open, `done` closes it; any other order violates the protocol and
yields `none`. -/
def fileRun : Bool → List FileEventKind → Option Bool
  | b, [] => some b
  | false, .start :: ks => fileRun true ks
  | true, .prog :: ks => fileRun true ks
  | true, .finish :: ks => fileRun false ks
  | _, _ :: _ => none

/-- Trace `t` respects the protocol's per-file ordering for key `F`. -/
def FileOrdered (F : String) (t : List WorkerEvent) : Prop :=
  (fileRun false (t.filterMap (fileKind F))).isSome = true

instance (F : String) (t : List WorkerEvent) : Decidable (FileOrdered F t) := by
  unfold FileOrdered
  infer_instance

/-- Whether file `F` has an in-flight download at the end of trace `t`
(between its `initiate` and its `done`). -/
def fileOpen (F : String) (t : List WorkerEvent) : Bool :=
  (fileRun false (t.filterMap (fileKind F))).getD false

/-- Number of progress items carrying file key `F`. -/
def countKey (F : String) (items : List ProgressItem) : Nat :=
  items.countP fun item => item.file == F

theorem countKey_map_progress (F file : String) (p : ℚ) (l : List ProgressItem) :
    countKey F (l.map fun item =>
      if item.file = file then { item with progress := p } else item) =
      countKey F l := by
  unfold countKey
  rw [List.countP_map]
  apply List.countP_congr
  intro a _
  by_cases h : a.file = file <;> simp [h, Function.comp]

theorem countKey_filter_self (F : String) (l : List ProgressItem) :
    countKey F (l.filter fun item => item.file ≠ F) = 0 := by
  unfold countKey
  rw [List.countP_filter]
  rw [List.countP_eq_zero]
  intro a _
  by_cases h : a.file = F <;> simp [h]

theorem countKey_filter_ne (F file : String) (h : file ≠ F) (l : List ProgressItem) :
    countKey F (l.filter fun item => item.file ≠ file) = countKey F l := by
  unfold countKey
  rw [List.countP_filter]
  apply List.countP_congr
  intro a _
  by_cases ha : a.file = F
  · subst ha
    simp [Ne.symm h]
  · simp [ha]

/-- The effect of one handler step on the number of tracker items with
key `F`, classified by `fileKind`: irrelevant events leave it alone,
`initiate` adds one, `progress` preserves it, `done` empties it. -/
theorem countKey_handle (F : String) (e : WorkerEvent) (s : TranscriberState) :
    countKey F (handleWorkerMessage e s).1.progressItems =
      match fileKind F e with
      | none => countKey F s.progressItems
      | some .start => countKey F s.progressItems + 1
      | some .prog => countKey F s.progressItems
      | some .finish => 0 := by
  cases e with
  | progress file p =>
      show countKey F (s.progressItems.map _) = _
      rw [countKey_map_progress]
      simp only [fileKind]
      by_cases h : file = F <;> simp [h]
  | initiate item =>
      show countKey F (s.progressItems ++ [item]) = _
      simp only [fileKind, countKey, List.countP_append]
      by_cases h : item.file = F <;> simp [h, countKey]
  | done file =>
      show countKey F (s.progressItems.filter _) = _
      simp only [fileKind]
      by_cases h : file = F
      · subst h
        simpa using countKey_filter_self file s.progressItems
      · simpa [h] using countKey_filter_ne F file h s.progressItems
  | update data => rfl
  | complete data => rfl
  | ready => rfl
  | model_ready => rfl
  | model_check_complete => rfl
  | error message => rfl

theorem runEvents_nil (s : TranscriberState) : runEvents [] s = s := rfl

theorem runEvents_cons (e : WorkerEvent) (t : List WorkerEvent) (s : TranscriberState) :
    runEvents (e :: t) s = runEvents t (handleWorkerMessage e s).1 := rfl

/-- Simulation of the per-file automaton by the tracker: if the trace's
events for key `F` drive the automaton from `b` to `b'`, and the state
holds one `F`-item exactly when `b` is set, then after the trace it
holds one `F`-item exactly when `b'` is set. -/
theorem countKey_runEvents (F : String) :
    ∀ (t : List WorkerEvent) (b b' : Bool) (s : TranscriberState),
      fileRun b (t.filterMap (fileKind F)) = some b' →
      countKey F s.progressItems = (if b then 1 else 0) →
      countKey F (runEvents t s).progressItems = (if b' then 1 else 0) := by
  intro t
  induction t with
  | nil =>
      intro b b' s h hc
      simp only [List.filterMap_nil, fileRun, Option.some.injEq] at h
      rw [runEvents_nil, hc, h]
  | cons e t ih =>
      intro b b' s h hc
      rw [runEvents_cons]
      have hstep := countKey_handle F e s
      cases hk : fileKind F e with
      | none =>
          simp only [List.filterMap_cons, hk] at h
          rw [hk] at hstep
          exact ih b b' _ h (hstep.trans hc)
      | some k =>
          simp only [List.filterMap_cons, hk] at h
          rw [hk] at hstep
          cases k with
          | start =>
              cases b with
              | false =>
                  simp only [fileRun] at h
                  refine ih true b' _ h ?_
                  rw [hstep, hc]
                  simp
              | true => simp [fileRun] at h
          | prog =>
              cases b with
              | false => simp [fileRun] at h
              | true =>
                  simp only [fileRun] at h
                  exact ih true b' _ h (hstep.trans hc)
          | finish =>
              cases b with
              | false => simp [fileRun] at h
              | true =>
                  simp only [fileRun] at h
                  exact ih false b' _ h hstep

/-- C3: starting from an empty tracker, any trace respecting the
per-file ordering for key `F` leaves exactly one `F`-item while `F` is
in flight (between its `initiate` and its `done`) and zero once it is
not — in particular at most one `F`-item at every reachable state; and
a `progress` or `done` event whose key matches no current item leaves
the item list unchanged, on every state. -/
theorem progressTracker_per_file :
    (∀ (s : TranscriberState) (t : List WorkerEvent) (F : String),
      s.progressItems = [] → FileOrdered F t →
      countKey F (runEvents t s).progressItems = (if fileOpen F t then 1 else 0)) ∧
    (∀ (s : TranscriberState) (t : List WorkerEvent) (F : String),
      s.progressItems = [] → FileOrdered F t →
      countKey F (runEvents t s).progressItems ≤ 1) ∧
    (∀ (s : TranscriberState) (file : String) (p : ℚ),
      (∀ item ∈ s.progressItems, item.file ≠ file) →
      (handleWorkerMessage (.progress file p) s).1.progressItems = s.progressItems) ∧
    (∀ (s : TranscriberState) (file : String),
      (∀ item ∈ s.progressItems, item.file ≠ file) →
      (handleWorkerMessage (.done file) s).1.progressItems = s.progressItems) := by
  have main : ∀ (s : TranscriberState) (t : List WorkerEvent) (F : String),
      s.progressItems = [] → FileOrdered F t →
      countKey F (runEvents t s).progressItems = (if fileOpen F t then 1 else 0) := by
    intro s t F hs hwf
    obtain ⟨b', hb'⟩ := Option.isSome_iff_exists.mp hwf
    have : fileOpen F t = b' := by unfold fileOpen; rw [hb']; rfl
    rw [this]
    refine countKey_runEvents F t false b' s hb' ?_
    simp [countKey, hs]
  refine ⟨main, ?_, ?_, ?_⟩
  · intro s t F hs hwf
    rw [main s t F hs hwf]
    split <;> omega
  · intro s file p h
    show s.progressItems.map _ = s.progressItems
    conv_rhs => rw [← List.map_id s.progressItems]
    apply List.map_congr_left
    intro a ha
    simp [h a ha]
  · intro s file h
    show s.progressItems.filter _ = s.progressItems
    rw [List.filter_eq_self]
    intro a ha
    simp [h a ha]

/-- A concrete protocol-ordered trace for file `"model.onnx"`:
`initiate`, one `progress`, `done`. -/
def sampleTrace : List WorkerEvent :=
  [WorkerEvent.initiate
      { file := "model.onnx", loaded := 0, progress := 0, total := 100,
        name := "whisper-tiny", status := "initiate" },
    WorkerEvent.progress "model.onnx" (1/2),
    WorkerEvent.done "model.onnx"]

/-- Witness for `progressTracker_per_file`: after running `sampleTrace`
from the empty tracker, the count of `"model.onnx"` items is `0`,
matching the closed automaton state. -/
theorem progressTracker_per_file_witness :
    sampleState.progressItems = [] ∧ FileOrdered "model.onnx" sampleTrace ∧
      countKey "model.onnx" (runEvents sampleTrace sampleState).progressItems =
        (if fileOpen "model.onnx" sampleTrace then 1 else 0) :=
  ⟨by decide, by decide,
    progressTracker_per_file.1 sampleState sampleTrace "model.onnx"
      (by decide) (by decide)⟩

/-! ### Audio mixdown and `start` (claims C2, C4, C7)

An `AudioBuffer` exposes a channel count, a frame count (`length`) and
per-channel sample data; the Web Audio invariant that every channel
holds exactly `length` frames is taken as a hypothesis where a theorem
needs it.  Samples are real numbers. -/

/-- The input audio buffer interface used by `postRequest`. -/
structure AudioBuffer where
  numberOfChannels : ℕ
  length : ℕ
  getChannelData : ℕ → List ℝ

/-- The mixdown performed inside `postRequest`: for exactly two
channels, sample `i` of the output is
`sqrt 2 * (left i + right i) / 2`; otherwise channel `0` is used as
is. -/
noncomputable def mixAudio (audioData : AudioBuffer) : List ℝ :=
  if audioData.numberOfChannels = 2 then
    let SCALING_FACTOR := Real.sqrt 2
    let left := audioData.getChannelData 0
    let right := audioData.getChannelData 1
    (List.range audioData.length).map fun i =>
      SCALING_FACTOR * (left.getD i 0 + right.getD i 0) / 2
  else
    audioData.getChannelData 0

/-- JavaScript's `String.prototype.endsWith`, on character lists. -/
def strEndsWith (s suffix : String) : Bool :=
  suffix.data.isSuffixOf s.data

/-- The `transcribe` message built by `postRequest`: `subtask` is sent
only for models whose id does not end in `".en"`, and `language` only
when additionally the selected language is not the `"auto"` sentinel. -/
noncomputable def transcribeRequest (s : TranscriberState) (audioData : AudioBuffer) :
    WorkerRequest :=
  .transcribe (mixAudio audioData) s.model s.dtype s.gpu
    (if ¬strEndsWith s.model ".en" then some s.subtask else none)
    (if ¬strEndsWith s.model ".en" ∧ s.language ≠ "auto" then some s.language else none)

/-- `start` (`postRequest`): with no audio it does nothing; with audio
it clears the transcript, sets busy, and posts one `transcribe`
request. -/
noncomputable def postRequest (audioData : Option AudioBuffer) (s : TranscriberState) :
    TranscriberState × List WorkerRequest :=
  match audioData with
  | none => (s, [])
  | some audioData =>
      ({ s with transcript := none, isBusy := true },
        [transcribeRequest s audioData])

/-- C2: `start` with no audio changes nothing and sends nothing; with
audio it clears the previous output, sets busy, leaves the rest of the
state alone, and posts exactly one message, a `transcribe` request
carrying the current model configuration. -/
theorem postRequest_start :
    (∀ s, postRequest none s = (s, [])) ∧
    (∀ s audioData,
      (postRequest (some audioData) s).1.transcript = none ∧
      (postRequest (some audioData) s).1.isBusy = true ∧
      (postRequest (some audioData) s).1.progressItems = s.progressItems ∧
      (postRequest (some audioData) s).1.isModelReady = s.isModelReady ∧
      (postRequest (some audioData) s).1.isModelLoading = s.isModelLoading ∧
      (postRequest (some audioData) s).1.isCheckingModel = s.isCheckingModel ∧
      ∃ subtask language,
        (postRequest (some audioData) s).2 =
          [.transcribe (mixAudio audioData) s.model s.dtype s.gpu subtask language]) :=
  ⟨fun _ => rfl,
    fun _ _ =>
      ⟨rfl, rfl, rfl, rfl, rfl, rfl, _, _, rfl⟩⟩

/-- C4: the mixdown passes a single channel through verbatim, applies
the equal-power formula `sqrt 2 * (left i + right i) / 2` pointwise for
exactly two channels, uses only channel `0` for more than two channels,
and its output length equals the input frame count. -/
theorem mixAudio_spec :
    (∀ a : AudioBuffer, a.numberOfChannels = 1 → mixAudio a = a.getChannelData 0) ∧
    (∀ (a : AudioBuffer) (i : ℕ), a.numberOfChannels = 2 → i < a.length →
      (mixAudio a).get? i = some (Real.sqrt 2 *
        ((a.getChannelData 0).getD i 0 + (a.getChannelData 1).getD i 0) / 2)) ∧
    (∀ a : AudioBuffer, 2 < a.numberOfChannels → mixAudio a = a.getChannelData 0) ∧
    (∀ a : AudioBuffer, a.numberOfChannels = 2 → (mixAudio a).length = a.length) ∧
    (∀ a : AudioBuffer, a.numberOfChannels ≠ 2 →
      (a.getChannelData 0).length = a.length → (mixAudio a).length = a.length) := by
  refine ⟨?_, ?_, ?_, ?_, ?_⟩
  · intro a h
    simp [mixAudio, h]
  · intro a i h hi
    have hr : (List.range a.length)[i]? = some i := List.getElem?_range hi
    simp [mixAudio, h, List.get?_eq_getElem?, List.getElem?_map, hr]
  · intro a h
    have : a.numberOfChannels ≠ 2 := by omega
    simp [mixAudio, this]
  · intro a h
    simp [mixAudio, h]
  · intro a h hlen
    simp [mixAudio, h, hlen]

/-- A concrete stereo buffer: one frame, left sample `1`, right
sample `3`. -/
noncomputable def stereoBuffer : AudioBuffer :=
  { numberOfChannels := 2
    length := 1
    getChannelData := fun c => [[(1 : ℝ)], [(3 : ℝ)]].getD c [] }

/-- Witness for `mixAudio_spec`: on `stereoBuffer`, sample `0` of the
mixdown is `sqrt 2 * (1 + 3) / 2`. -/
theorem mixAudio_spec_witness :
    stereoBuffer.numberOfChannels = 2 ∧ 0 < stereoBuffer.length ∧
      (mixAudio stereoBuffer).get? 0 = some (Real.sqrt 2 *
        ((stereoBuffer.getChannelData 0).getD 0 0 +
          (stereoBuffer.getChannelData 1).getD 0 0) / 2) :=
  ⟨rfl, Nat.zero_lt_one, mixAudio_spec.2.1 stereoBuffer 0 rfl Nat.zero_lt_one⟩

/-- C7: in the `transcribe` request built by `start`, an English-only
model id (suffix `".en"`) sends both `subtask` and `language` as null;
otherwise `subtask` is sent, and `language` is sent as null exactly
when the selected language is the `"auto"` sentinel. -/
theorem transcribeRequest_params :
    (∀ s audioData, strEndsWith s.model ".en" = true →
      transcribeRequest s audioData =
        .transcribe (mixAudio audioData) s.model s.dtype s.gpu none none) ∧
    (∀ s audioData, strEndsWith s.model ".en" = false → s.language = "auto" →
      transcribeRequest s audioData =
        .transcribe (mixAudio audioData) s.model s.dtype s.gpu (some s.subtask) none) ∧
    (∀ s audioData, strEndsWith s.model ".en" = false → s.language ≠ "auto" →
      transcribeRequest s audioData =
        .transcribe (mixAudio audioData) s.model s.dtype s.gpu (some s.subtask)
          (some s.language)) := by
  refine ⟨?_, ?_, ?_⟩ <;> intro s audioData h
  · simp [transcribeRequest, h]
  · intro hl
    simp [transcribeRequest, h, hl]
  · intro hl
    simp [transcribeRequest, h, hl]

/-- `sampleState` with an English-only model selected. -/
def englishState : TranscriberState :=
  { sampleState with model := "onnx-community/whisper-tiny.en" }

/-- Witness for `transcribeRequest_params`: with model
`"onnx-community/whisper-tiny.en"`, both `subtask` and `language` are
sent as null. -/
theorem transcribeRequest_params_witness :
    strEndsWith englishState.model ".en" = true ∧
      transcribeRequest englishState stereoBuffer =
        .transcribe (mixAudio stereoBuffer) englishState.model englishState.dtype
          englishState.gpu none none :=
  ⟨by decide, transcribeRequest_params.1 englishState stereoBuffer (by decide)⟩

/-! ### Transcript model: the edit overlay (claims C8, C10)

The `Transcript` component keeps `editedChunks`, a JavaScript object
mapping chunk indices to edited text, next to the (optional) chunk list
it receives as `transcribedData?.chunks`.  The object is modelled as an
association list with unique keys; `{...prev, [k]: v}` replaces the
value in place when the key exists and appends otherwise. -/

/-- The state visible to the `Transcript` component: the optional chunk
list and the `editedChunks` overlay. -/
structure TranscriptView where
  chunks : Option (List Chunk)
  editedChunks : List (ℕ × String)
  deriving DecidableEq, Repr

/-- Read `editedChunks[i]` (JS object indexing: `undefined` on a miss). -/
def lookupOverlay (overlay : List (ℕ × String)) (i : ℕ) : Option String :=
  (overlay.find? fun p => p.1 == i).map fun p => p.2

/-- `{...prev, [i]: txt}`: replace in place if the key exists, append
otherwise. -/
def insertOverlay (i : ℕ) (txt : String) (overlay : List (ℕ × String)) :
    List (ℕ × String) :=
  if overlay.any fun p => p.1 == i then
    overlay.map fun p => if p.1 == i then (i, txt) else p
  else
    overlay ++ [(i, txt)]

/-- The overlay built by the reset effect: every index of the chunk
list mapped to that chunk's original text. -/
def initialEditedChunks (chunks : List Chunk) : List (ℕ × String) :=
  chunks.enum.map fun p => (p.1, p.2.text)

/-- A new `TranscriberData` chunk list arriving at the component: the
reset effect fires (its guard sees a present chunk list) and rebuilds
the overlay from the original texts. -/
def installOutput (chunks : List Chunk) (v : TranscriptView) : TranscriptView :=
  { v with chunks := some chunks, editedChunks := initialEditedChunks chunks }

/-- `onInputChange` upstream clears the transcript; the reset effect's
guard `transcribedData?.chunks` is now `undefined`, so the overlay is
left as it was. -/
def clearInput (v : TranscriptView) : TranscriptView :=
  { v with chunks := none }

/-- `handleTextChange`: record an edited text for a chunk index. -/
def handleTextChange (i : ℕ) (txt : String) (v : TranscriptView) : TranscriptView :=
  { v with editedChunks := insertOverlay i txt v.editedChunks }

/-- `getChunkText`:
`editedChunks[chunkIndex] ?? transcribedData?.chunks[chunkIndex]?.text ?? ""`. -/
def getChunkText (v : TranscriptView) (i : ℕ) : String :=
  match lookupOverlay v.editedChunks i with
  | some t => t
  | none =>
      match v.chunks with
      | some chunks =>
          match chunks.get? i with
          | some c => c.text
          | none => ""
      | none => ""

/-- `isChunkEdited`: compare the chunk's original text with the
effective (possibly overlaid) text. -/
def isChunkEdited (v : TranscriptView) (i : ℕ) : Bool :=
  let originalText :=
    match v.chunks with
    | some chunks =>
        match chunks.get? i with
        | some c => c.text
        | none => ""
    | none => ""
  let editedText := (lookupOverlay v.editedChunks i).getD originalText
  originalText != editedText

/-- Invariant claimed by the spec: every index in the overlay is a
valid index into the current chunk list. -/
def OverlayValid (v : TranscriptView) : Prop :=
  ∀ p ∈ v.editedChunks, p.1 < (v.chunks.getD []).length

instance (v : TranscriptView) : Decidable (OverlayValid v) := by
  unfold OverlayValid
  exact List.decidableBAll _ v.editedChunks

/-- A default chunk, used with `List.getD`. -/
def defaultChunk : Chunk := { text := "", timestamp := (0, none) }

theorem lookupOverlay_initial (chunks : List Chunk) :
    ∀ (n i : ℕ), i < chunks.length →
      ((chunks.enumFrom n).map fun p => (p.1, p.2.text)).find?
          (fun p => p.1 == n + i) =
        some (n + i, (chunks.getD i defaultChunk).text) := by
  induction chunks with
  | nil =>
      intro n i hi
      simp at hi
  | cons c cs ih =>
      intro n i hi
      cases i with
      | zero =>
          rw [List.enumFrom_cons, List.map_cons, List.find?_cons_of_pos]
          · simp [List.getD]
          · simp
      | succ j =>
          rw [List.enumFrom_cons, List.map_cons, List.find?_cons_of_neg]
          · have harith : n + (j + 1) = (n + 1) + j := by omega
            rw [harith, ih (n + 1) j (by simpa using hi)]
            simp [List.getD]
          · simp

/-- Validity of the freshly-built overlay, in enum form. -/
theorem initialEditedChunks_keys (chunks : List Chunk) :
    ∀ p ∈ initialEditedChunks chunks, p.1 < chunks.length := by
  intro p hp
  unfold initialEditedChunks at hp
  obtain ⟨q, hq, rfl⟩ := List.mem_map.mp hp
  have h1 := List.mem_enum_iff_getElem?.mp hq
  obtain ⟨h, -⟩ := List.getElem?_eq_some.mp h1
  exact h

theorem get?_eq_some_getD (l : List Chunk) (i : ℕ) (hi : i < l.length) :
    l.get? i = some (l.getD i defaultChunk) := by
  rw [List.getD_eq_getElem?_getD, List.get?_eq_getElem?, List.getElem?_eq_getElem hi]
  rfl

/-- A chunk list with one chunk, and an empty component state. -/
def chunkA : Chunk := { text := "a", timestamp := (0, none) }

/-- The component state before any output arrived. -/
def emptyView : TranscriptView := { chunks := none, editedChunks := [] }

/-- Counterexample to C8 as stated: install a one-chunk output (overlay
gets index `0`), then clear the input; the overlay still holds index
`0` while the current chunk list is absent, so the validity invariant
is broken by the clearing operation. -/
theorem clearInput_overlay_counterexample :
    ¬ OverlayValid (clearInput (installOutput [chunkA] emptyView)) := by
  decide

/-- C8 (amended): installing a new output resets the overlay so every
chunk reads as its original text (and counts as unedited) and makes
every overlay index valid; editing an existing chunk preserves overlay
validity; but clearing the input leaves the overlay untouched (the
reset effect's guard sees no chunk list), so stale indices survive and
validity can be lost at that step. -/
theorem overlayReset_validity :
    (∀ (chunks : List Chunk) (v : TranscriptView) (i : ℕ), i < chunks.length →
      getChunkText (installOutput chunks v) i = (chunks.getD i defaultChunk).text ∧
      isChunkEdited (installOutput chunks v) i = false) ∧
    (∀ (chunks : List Chunk) (v : TranscriptView),
      OverlayValid (installOutput chunks v)) ∧
    (∀ (v : TranscriptView) (i : ℕ) (txt : String), OverlayValid v →
      i < (v.chunks.getD []).length → OverlayValid (handleTextChange i txt v)) ∧
    (∀ v : TranscriptView, (clearInput v).editedChunks = v.editedChunks) := by
  have hfind : ∀ (chunks : List Chunk) (i : ℕ), i < chunks.length →
      lookupOverlay (initialEditedChunks chunks) i =
        some (chunks.getD i defaultChunk).text := by
    intro chunks i hi
    have h := lookupOverlay_initial chunks 0 i hi
    simp only [Nat.zero_add] at h
    unfold lookupOverlay initialEditedChunks
    rw [List.enum, h]
    rfl
  refine ⟨?_, ?_, ?_, fun _ => rfl⟩
  · intro chunks v i hi
    constructor
    · unfold getChunkText
      rw [show (installOutput chunks v).editedChunks = initialEditedChunks chunks from rfl,
        hfind chunks i hi]
    · unfold isChunkEdited
      rw [show (installOutput chunks v).editedChunks = initialEditedChunks chunks from rfl,
        hfind chunks i hi,
        show (installOutput chunks v).chunks = some chunks from rfl]
      simp [List.getElem?_eq_getElem hi]
  · intro chunks v
    intro p hp
    exact initialEditedChunks_keys chunks p hp
  · intro v i txt hv hi
    intro p hp
    show p.1 < ((handleTextChange i txt v).chunks.getD []).length
    have hc : (handleTextChange i txt v).chunks = v.chunks := rfl
    rw [hc]
    have hp2 : p ∈ insertOverlay i txt v.editedChunks := hp
    unfold insertOverlay at hp2
    by_cases hany : v.editedChunks.any fun q => q.1 == i
    · rw [if_pos hany] at hp2
      obtain ⟨q, hq, hfq⟩ := List.mem_map.mp hp2
      by_cases hqi : q.1 == i
      · rw [if_pos hqi] at hfq
        rw [← hfq]
        exact hi
      · rw [if_neg hqi] at hfq
        rw [← hfq]
        exact hv q hq
    · rw [if_neg hany] at hp2
      rcases List.mem_append.mp hp2 with hold | hnew
      · exact hv p hold
      · rw [List.mem_singleton.mp hnew]
        exact hi

/-- Witness for `overlayReset_validity`: after installing a one-chunk
output, chunk `0` reads as its original text `"a"` and is unedited, and
editing chunk `0` keeps the overlay valid. -/
theorem overlayReset_validity_witness :
    (0 < [chunkA].length ∧
      getChunkText (installOutput [chunkA] emptyView) 0 =
        ([chunkA].getD 0 defaultChunk).text ∧
      isChunkEdited (installOutput [chunkA] emptyView) 0 = false) ∧
    (OverlayValid (installOutput [chunkA] emptyView) ∧
      0 < (((installOutput [chunkA] emptyView).chunks).getD []).length ∧
      OverlayValid (handleTextChange 0 "edited" (installOutput [chunkA] emptyView))) :=
  ⟨⟨by decide,
      overlayReset_validity.1 [chunkA] emptyView 0 (by decide)⟩,
    ⟨by decide, by decide,
      overlayReset_validity.2.2.1 (installOutput [chunkA] emptyView) 0 "edited"
        (by decide) (by decide)⟩⟩

/-- C10: `getChunkText` and `isChunkEdited` are total: an overlay entry
wins, else an existing chunk's original text is returned, and at an
index with neither an overlay entry nor a chunk, `getChunkText` returns
the empty string and `isChunkEdited` returns `false`. -/
theorem chunkText_total :
    (∀ (v : TranscriptView) (i : ℕ) (t : String),
      lookupOverlay v.editedChunks i = some t → getChunkText v i = t) ∧
    (∀ (v : TranscriptView) (i : ℕ) (chunks : List Chunk),
      lookupOverlay v.editedChunks i = none → v.chunks = some chunks →
      i < chunks.length →
      getChunkText v i = (chunks.getD i defaultChunk).text) ∧
    (∀ (v : TranscriptView) (i : ℕ),
      lookupOverlay v.editedChunks i = none →
      (v.chunks.getD []).length ≤ i →
      getChunkText v i = "" ∧ isChunkEdited v i = false) := by
  refine ⟨?_, ?_, ?_⟩
  · intro v i t h
    unfold getChunkText
    rw [h]
  · intro v i chunks h hc hi
    unfold getChunkText
    simp only [h, hc]
    simp [List.getElem?_eq_getElem hi, List.getD_eq_getElem?_getD]
  · intro v i h hlen
    cases hc : v.chunks with
    | none =>
        constructor
        · unfold getChunkText
          rw [h, hc]
        · unfold isChunkEdited
          rw [h, hc]
          rfl
    | some chunks =>
        rw [hc] at hlen
        have hnone : chunks[i]? = none :=
          List.getElem?_eq_none (by simpa using hlen)
        constructor
        · unfold getChunkText
          simp only [h, hc]
          simp [hnone]
        · unfold isChunkEdited
          simp only [h, hc]
          simp [hnone]

/-- Witness for `chunkText_total`: on the empty component state, index
`5` has no overlay entry and no chunk, and both accessors return their
defaults. -/
theorem chunkText_total_witness :
    lookupOverlay emptyView.editedChunks 5 = none ∧
      (emptyView.chunks.getD []).length ≤ 5 ∧
      getChunkText emptyView 5 = "" ∧ isChunkEdited emptyView 5 = false :=
  ⟨by decide, by decide,
    chunkText_total.2.2 emptyView 5 (by decide) (by decide)⟩

/-! ### JSON export (claim C9)

`exportJSON` maps each chunk to `{...chunk, text: getChunkText(i)}`,
pretty-prints the array with `JSON.stringify(data, null, 2)`, then
applies the post-processing regex
`/( {4}"timestamp": )\[\s+(\S+)\s+(\S+)\s+\]/gm` with replacement
`"$1[$2 $3]"`. -/

/-- Decimal digits of the fractional part `r / d` (with fuel; the scan
stops when the remainder hits zero, which strips trailing zeros the way
JavaScript's shortest-representation printing does for the terminating
decimals arising here). -/
def fracDigits : ℕ → ℕ → ℕ → List Char
  | 0, _, _ => []
  | _ + 1, 0, _ => []
  | fuel + 1, r, d =>
      let r10 := r * 10
      Nat.digitChar (r10 / d) :: fracDigits fuel (r10 % d) d

/-- JavaScript number-to-string for the rationals arising here: sign,
integer part and, for a non-integer, the fractional decimal digits. -/
def ratToString (q : ℚ) : String :=
  let sign := if q < 0 then "-" else ""
  let n := q.num.natAbs
  let d := q.den
  let ip := n / d
  let r := n % d
  if r = 0 then sign ++ toString ip
  else sign ++ toString ip ++ "." ++ String.mk (fracDigits 30 r d)

/-- JSON string escaping (quote, backslash, control characters). -/
def jsonEscapeChar (c : Char) : String :=
  if c = '"' then "\\\""
  else if c = '\\' then "\\\\"
  else if c = '\n' then "\\n"
  else if c = '\t' then "\\t"
  else if c = '\r' then "\\r"
  else String.singleton c

/-- A JSON string literal. -/
def jsonStr (s : String) : String :=
  "\"" ++ String.join (s.data.map jsonEscapeChar) ++ "\""

/-- `JSON.stringify` at 2-space indentation of one chunk object sitting
at array depth 1, exactly as the pretty-printer lays it out: the object
on its own indented lines, the timestamp array one element per line.
Modelled from the spec: the worker that builds the chunk objects is not
under `src/`, so the object's field order (`timestamp` before `text`,
as in the spec's JSON scenario) is taken from the spec. -/
def renderChunkJson (c : Chunk) : String :=
  "  \x7b\n    \"timestamp\": [\n      " ++ ratToString c.timestamp.1 ++ ",\n      "
    ++ (match c.timestamp.2 with
        | some e => ratToString e
        | none => "null")
    ++ "\n    ],\n    \"text\": " ++ jsonStr c.text ++ "\n  \x7d"

/-- `JSON.stringify(chunkArray, null, 2)`. -/
def stringifyChunks : List Chunk → String
  | [] => "[]"
  | cs => "[\n" ++ String.intercalate ",\n" (cs.map renderChunkJson) ++ "\n]"

/-- JavaScript's `\s` class, restricted to the whitespace characters
that can occur in the generated JSON. -/
def isWs (c : Char) : Bool :=
  c == ' ' || c == '\n' || c == '\t' || c == '\r'

/-- The literal part `( {4}"timestamp": )\[` of the post-processing
regex. -/
def tsPatternLit : List Char := "    \"timestamp\": [".data

/-- Match `( {4}"timestamp": )\[\s+(\S+)\s+(\S+)\s+\]` at the head of
the character list.  Because `\s` and `\S` are disjoint classes, the
regex's greedy matching coincides with maximal munch, so no
backtracking is needed.  On success, return the replacement
`$1[$2 $3]` (note `$2` keeps whatever non-whitespace it grabbed,
including a trailing comma) and the characters after the match. -/
def matchTs (cs : List Char) : Option (List Char × List Char) :=
  if tsPatternLit.isPrefixOf cs then
    let r0 := cs.drop tsPatternLit.length
    let w1 := r0.takeWhile isWs
    let r1 := r0.dropWhile isWs
    let t1 := r1.takeWhile fun c => !isWs c
    let r2 := r1.dropWhile fun c => !isWs c
    let w2 := r2.takeWhile isWs
    let r3 := r2.dropWhile isWs
    let t2 := r3.takeWhile fun c => !isWs c
    let r4 := r3.dropWhile fun c => !isWs c
    let w3 := r4.takeWhile isWs
    let r5 := r4.dropWhile isWs
    if w1.isEmpty || t1.isEmpty || w2.isEmpty || t2.isEmpty || w3.isEmpty then none
    else
      match r5 with
      | ']' :: rest =>
          some (tsPatternLit ++ t1 ++ [' '] ++ t2 ++ [']'], rest)
      | _ => none
  else none

/-- Global replacement: leftmost matches, non-overlapping, scanning
resumes after each replacement.  The fuel (the input length) bounds the
scan; every step consumes at least one character. -/
def replaceLoop : ℕ → List Char → List Char
  | 0, cs => cs
  | _ + 1, [] => []
  | fuel + 1, c :: cs =>
      match matchTs (c :: cs) with
      | some (rep, rest) => rep ++ replaceLoop fuel rest
      | none => c :: replaceLoop fuel cs

/-- `jsonData.replace(regex, "$1[$2 $3]")`. -/
def replaceTimestampArrays (s : String) : String :=
  String.mk (replaceLoop s.data.length s.data)

/-- `exportJSON` (without the file download): effective texts merged
into the chunks, pretty-printed, post-processed. -/
def exportJSON (v : TranscriptView) : String :=
  let chunks := v.chunks.getD []
  let editedChunksData := chunks.enum.map fun p =>
    { p.2 with text := getChunkText v p.1 }
  replaceTimestampArrays (stringifyChunks editedChunksData)

/-- The first chunk of the export scenario. -/
def helloChunk : Chunk := { text := "Hello", timestamp := (0, some (mkRat 3 2)) }

/-- The second, open-ended chunk of the export scenario. -/
def worldChunk : Chunk := { text := "world", timestamp := (mkRat 3 2, none) }

/-- The component state of the export scenario: both chunks installed,
then chunk 2 (index 1) edited to `"World!"`. -/
def scenarioView : TranscriptView :=
  handleTextChange 1 "World!" (installOutput [helloChunk, worldChunk] emptyView)

set_option maxRecDepth 100000 in
/-- Counterexample to C9 as stated: the claimed second-element
timestamp rendering `[1.5 1.5]` occurs nowhere in the actual JSON
export of the scenario (the regex's `\S+` keeps the first number's
trailing comma, and the open end timestamp stays `null`). -/
theorem exportJSON_scenario_counterexample :
    ¬ ("[1.5 1.5]".data <:+: (exportJSON scenarioView).data) := by
  decide

set_option maxRecDepth 100000 in
/-- C9 (amended): the JSON export of the scenario is the 2-space
pretty-printed array whose second element is
`\x7b"timestamp": [1.5, null], "text": "World!"\x7d` — each timestamp
array on a single line, the first number keeping the pretty-printer's
trailing comma and the open end rendered as `null` rather than being
replaced by the start. -/
theorem exportJSON_scenario_output :
    exportJSON scenarioView =
      "[\n  \x7b\n    \"timestamp\": [0, 1.5],\n    \"text\": \"Hello\"\n  \x7d,\n  \x7b\n    \"timestamp\": [1.5, null],\n    \"text\": \"World!\"\n  \x7d\n]" := by
  rfl

end WhisperWeb
